import Mathlib

/-!
Shallow embedding of the legacy-scrobbler client (Audioscrobbler 1.2
submission engine) and proofs about it.

Conventions of the embedding:
* Python `datetime.datetime` instants are modelled as integer microseconds
  since the epoch (`Int`); all Listen dates are timezone-aware by
  construction in the model (the source rejects naive dates at
  construction).
* Python `datetime.timedelta` values are modelled by their total length in
  microseconds (`Int`).  The normalized `days`/`seconds`/`microseconds`
  components of a timedelta follow Python semantics: `microseconds`
  is `t mod 10^6`, `seconds` is `(t div 10^6) mod 86400` with floor
  division and a non-negative remainder, exactly as Python normalizes.
* Fallible Python code (raised exceptions) is modelled with `Option` /
  `Except`.
* The wall clock and the HTTP transport are oracles passed in explicitly.
-/

namespace LegacyScrobbler

/-- Python `timedelta.seconds` component of a timedelta of `t` microseconds:
`(t // 10^6) % 86400` with Python floor-division semantics (which agree with
`Int.ediv`/`Int.emod` for positive divisors). -/
def tdSeconds (t : Int) : Int :=
  (Int.ediv t 1000000).emod 86400

/-- Wire parameter values: Python mixes `str` and `int` values in the
param dicts, so the model keeps the two shapes apart. -/
inductive PVal where
  | s (v : String)
  | i (v : Int)
deriving DecidableEq, Repr

/-- `legacy_scrobbler.listen.Listen`: value object for one play event.
`date` is the timezone-aware instant in microseconds since the epoch;
optional constructor arguments that default to `None` are `Option` fields. -/
structure Listen where
  date : Int
  artist_name : String
  track_title : String
  album_title : Option String := none
  length : Option Int := none
  tracknumber : Option Int := none
  mb_trackid : Option String := none
  source : String := "P"
  rating : Option String := none
deriving DecidableEq, Repr

namespace Listen

/-- `Listen.timestamp`: `int(self.date.timestamp())` — whole seconds since
the epoch, truncated toward zero as Python `int()` does. -/
def timestamp (l : Listen) : Int :=
  Int.tdiv l.date 1000000

/-- Python `round(n / 2)` for an integer `n`: exact when `n` is even, and
banker's rounding (round half to even) on the `.5` ties when `n` is odd,
exactly as Python 3 `round` behaves. -/
def roundHalfOf (n : Int) : Int :=
  if Int.emod n 2 = 0 then Int.ediv n 2
  else
    if Int.emod (Int.ediv n 2) 2 = 0 then Int.ediv n 2 else Int.ediv n 2 + 1

/-- `Listen.required_play_time` for a listen whose `length` is the given
integer: `240` if `length > 480` else `round(length / 2)`.  (The source
property reads `self.length` and fails on an absent length; the caller
below guards on presence.) -/
def required_play_time (length : Int) : Int :=
  if length > 480 then 240 else roundHalfOf length

/-- Python truthiness rendering `x or ""` for an optional string: `None`
and `""` both render as `""`. -/
def orEmptyStr (o : Option String) : String :=
  o.getD ""

/-- Python truthiness rendering `x or ""` for an optional int: `None` and
`0` both render as the *string* `""`, any other int stays an int. -/
def orEmptyInt (o : Option Int) : PVal :=
  match o with
  | none => .s ""
  | some n => if n = 0 then .s "" else .i n

/-- `Listen.nowplaying_params`: the nowplaying POST body for this listen,
as an ordered key/value list (the Python dict preserves insertion order and
all keys are distinct). -/
def nowplaying_params (l : Listen) : List (String × PVal) :=
  [ ("a", .s l.artist_name)
  , ("t", .s l.track_title)
  , ("b", .s (orEmptyStr l.album_title))
  , ("l", orEmptyInt l.length)
  , ("n", orEmptyInt l.tracknumber)
  , ("m", .s (orEmptyStr l.mb_trackid)) ]

/-- `Listen.scrobble_params(idx)`: the scrobble POST body contribution of
this listen at positional index `idx`.  `l[idx]` is `self.length or 0`, an
int in all cases. -/
def scrobble_params (l : Listen) (idx : Nat) : List (String × PVal) :=
  [ ("a[" ++ toString idx ++ "]", .s l.artist_name)
  , ("t[" ++ toString idx ++ "]", .s l.track_title)
  , ("i[" ++ toString idx ++ "]", .i l.timestamp)
  , ("o[" ++ toString idx ++ "]", .s l.source)
  , ("r[" ++ toString idx ++ "]", .s (orEmptyStr l.rating))
  , ("l[" ++ toString idx ++ "]", .i (l.length.getD 0))
  , ("b[" ++ toString idx ++ "]", .s (orEmptyStr l.album_title))
  , ("n[" ++ toString idx ++ "]", orEmptyInt l.tracknumber)
  , ("m[" ++ toString idx ++ "]", .s (orEmptyStr l.mb_trackid)) ]

/-- `Listen.eligible_for_scrobbling(reference)`.  The source first
evaluates `self.length < 30`, which raises `TypeError` when `length` is
`None` (`None < int` is unsupported in Python 3); that raise is modelled
as `none`.  Otherwise: `False` when `length < 30`; `True` when no
reference is given; else it compares the `.seconds` component (NOT the
total length) of `reference - self.date` against `required_play_time`. -/
def eligible_for_scrobbling (l : Listen) (reference : Option Int) : Option Bool :=
  match l.length with
  | none => none
  | some len =>
    if len < 30 then some false
    else
      match reference with
      | none => some true
      | some r => some (decide (tdSeconds (r - l.date) ≥ required_play_time len))

end Listen

/-- `legacy_scrobbler.delay.Delay` state: backoff length in whole seconds
and the instant (microseconds) the backoff was armed, if any.  The policy
options of the engine instance are `base=60`, `max=7200`, `multiplier=2`
(from `ScrobbleClientInterface.__init__`). -/
structure Delay where
  seconds : Nat := 0
  start_time : Option Int := none
deriving DecidableEq, Repr

namespace Delay

/-- `Delay.remaining` at wall-clock instant `now` (microseconds): zero if
no backoff length or no start time is set, zero if the delay end has
passed, otherwise `start_time + seconds - now`.  The result is the total
length of the returned timedelta in microseconds. -/
def remainingMicros (d : Delay) (now : Int) : Int :=
  if d.seconds = 0 then 0
  else
    match d.start_time with
    | none => 0
    | some st =>
      let delayEnd := st + (d.seconds : Int) * 1000000
      if delayEnd ≤ now then 0 else delayEnd - now

/-- `Delay.is_active` at instant `now`: the source tests
`self.remaining.seconds > 0`, i.e. the normalized `seconds` *component* of
the remaining timedelta, not its total length. -/
def is_active (d : Delay) (now : Int) : Bool :=
  decide (tdSeconds (remainingMicros d now) > 0)

/-- `Delay.increase` on the seconds field:
`(seconds * multiplier) or base` (Python truthiness: the product `0` falls
back to `base`), then clamped to `max`. -/
def increase (base mx mult s : Nat) : Nat :=
  let s1 := if s * mult = 0 then base else s * mult
  if s1 > mx then mx else s1

end Delay

/-- Python `str.startswith(p)`. -/
def strStartsWith (s p : String) : Bool :=
  p.data.isPrefixOf s.data

/-- Python `str.split(sep)` for a single-character separator, on the
character list of a string. -/
def splitCharList (sep : Char) : List Char → List (List Char)
  | [] => [[]]
  | c :: rest =>
    if c = sep then [] :: splitCharList sep rest
    else
      match splitCharList sep rest with
      | [] => [[c]]
      | g :: gs => (c :: g) :: gs

/-- Python `body.split("\n")`. -/
def splitLines (s : String) : List String :=
  (splitCharList (Char.ofNat 10) s.data).map String.mk

/-- The closed error taxonomy of `legacy_scrobbler.exceptions` that the
engine catches or propagates. -/
inductive NetError where
  | hardFailure (detail : String)
  | requestsError (detail : String)
  | badSession (detail : String)
  | clientBanned
  | badAuth
  | badTime
  | submissionWithoutListens
deriving DecidableEq, Repr

/-- Outcome of one attempted HTTP exchange, as seen by the code: either a
response (status code and body text) or an exception raised inside the
requests library. -/
inductive HttpResult where
  | resp (status : Nat) (body : String)
  | exn (msg : String)
deriving DecidableEq, Repr

/-- One HTTP exchange as issued by the code: method, target URL, the
timeout argument passed to the requests library (if any), and the form
body.  The handshake GET's query parameters (`hs`, `p`, `c`, `v`, `u`,
`t`, `a`) are not tracked: they involve the MD5 primitive and the wall
clock, and no claim is about them. -/
structure HttpCall where
  method : String
  url : Option String
  timeout : Option Nat
  body : List (String × PVal)
deriving DecidableEq, Repr

/-- `requests.get(self.handshake_url, params=params, timeout=5)`: the
handshake exchange carries an explicit 5-second timeout. -/
def handshakeCall (handshakeUrl : String) : HttpCall :=
  { method := "GET", url := some handshakeUrl, timeout := some 5, body := [] }

/-- `raise_for_status()`: the requests library raises `HTTPError` exactly
for 4xx and 5xx status codes; `Network` converts that to `HardFailureError`
carrying the error text (modelled by the status code rendered). -/
def raiseForStatus (status : Nat) : Except NetError Unit :=
  if 400 ≤ status ∧ status < 600 then .error (.hardFailure (toString status))
  else .ok ()

/-- `Network._process_handshake_response`: split the body on newlines; an
`"OK"` first line with at least 4 lines yields (session, nowplaying_url,
scrobble_url); `BANNED`/`BADAUTH`/`BADTIME` raise their fatal exceptions;
anything else is a hard failure carrying the body. -/
def processHandshakeResponse (body : String) : Except NetError (String × String × String) :=
  match splitLines body with
  | "OK" :: sid :: npu :: su :: _ => .ok (sid, npu, su)
  | result =>
    match result.head? with
    | some "BANNED" => .error .clientBanned
    | some "BADAUTH" => .error .badAuth
    | some "BADTIME" => .error .badTime
    | _ => .error (.hardFailure body)

/-- `Network.handshake` given the transport outcome: a requests exception
maps to `RequestsError`, a 4xx/5xx status to `HardFailureError`, and an
accepted response is parsed by `processHandshakeResponse`. -/
def handshakeNet (res : HttpResult) : Except NetError (String × String × String) :=
  match res with
  | .exn msg => .error (.requestsError ("Exception from underlying requests library: " ++ msg))
  | .resp status body =>
    match raiseForStatus status with
    | .error e => .error e
    | .ok _ => processHandshakeResponse body

/-- `Network._process_post_response`: `OK` prefix succeeds, `BADSESSION`
prefix raises `BadSessionError`, anything else is a hard failure. -/
def processPostResponse (body : String) : Except NetError Unit :=
  if strStartsWith body "OK" then .ok ()
  else if strStartsWith body "BADSESSION" then
    .error (.badSession "Remote server says the session is invalid")
  else .error (.hardFailure body)

/-- `Network._get_scrobble_params` starting at index `i`: the `enumerate`
loop merges each listen's `scrobble_params(idx=i)` into one dict (keys are
distinct across indices, so the ordered list is faithful). -/
def getScrobbleParamsAux (i : Nat) : List Listen → List (String × PVal)
  | [] => []
  | l :: rest => l.scrobble_params i ++ getScrobbleParamsAux (i + 1) rest

/-- `Network._get_scrobble_params(listens)`. -/
def getScrobbleParams (listens : List Listen) : List (String × PVal) :=
  getScrobbleParamsAux 0 listens

/-- The two POST request kinds of `Network._make_post_request`. -/
inductive ReqType where
  | nowplaying
  | scrobble
deriving DecidableEq, Repr

/-- `Network._make_post_request`, returning both the result and the list
of HTTP exchanges actually issued.  Order of checks follows the source:
1. no stored session → `BadSessionError` before anything else (no HTTP);
2. empty listens → `SubmissionWithoutListensError` (no HTTP);
3. otherwise the POST is issued — `requests.post(url, data=params)`
   passes NO timeout argument — and the outcome is classified. -/
def makePostRequest (session : Option String) (npUrl subUrl : Option String)
    (rt : ReqType) (listens : List Listen) (res : HttpResult) :
    Except NetError Unit × List HttpCall :=
  match session with
  | none => (.error (.badSession "No session exists at time of submission attempt"), [])
  | some sid =>
    match listens with
    | [] => (.error .submissionWithoutListens, [])
    | l0 :: _ =>
      let params :=
        match rt with
        | .scrobble => getScrobbleParams listens
        | .nowplaying => l0.nowplaying_params
      let url := match rt with | .scrobble => subUrl | .nowplaying => npUrl
      let call : HttpCall :=
        { method := "POST", url := url, timeout := none
        , body := params ++ [("s", .s sid)] }
      match res with
      | .exn msg =>
        (.error (.requestsError ("Exception from underlying requests library: " ++ msg)), [call])
      | .resp status body =>
        match raiseForStatus status with
        | .error e => (.error e, [call])
        | .ok _ => (processPostResponse body, [call])

/-- The engine state label: `"no_session"` or `"idle"`. -/
inductive EngState where
  | noSession
  | idle
deriving DecidableEq, Repr

/-- `LegacyScrobbler` engine state: the `Network` fields (session and the
two submission URLs, plus the configured handshake URL) together with the
`ScrobbleClientInterface` fields (hard-fail counter, queue, nowplaying
slot, delay seconds).  The delay's `start_time` and the wall clock are
abstracted into the per-tick `delayActive` oracle, since `is_active` is
the only way the engine reads them; `Delay._seconds` is tracked exactly. -/
structure Engine where
  state : EngState
  session : Option String
  nowplayingUrl : Option String
  scrobbleUrl : Option String
  handshakeUrl : String
  hardFails : Nat
  delaySeconds : Nat
  np : Option Listen
  queue : List Listen
deriving DecidableEq, Repr

/-- `LegacyScrobbler.__init__`: state `"no_session"`, no session or URLs,
zero failures, delay seconds 0, empty queue, no nowplaying slot. -/
def Engine.init (handshakeUrl : String) : Engine :=
  { state := .noSession, session := none, nowplayingUrl := none
  , scrobbleUrl := none, handshakeUrl := handshakeUrl, hardFails := 0
  , delaySeconds := 0, np := none, queue := [] }

/-- `LegacyScrobbler._sort_queue`: `deque(sorted(queue, key=date))`.
Python's `sorted` is a stable sort by the date key; any stable sort
computes the same list, so the model uses insertion sort. -/
def dateLe (a b : Listen) : Prop :=
  a.date ≤ b.date

instance : DecidableRel dateLe := fun a b => Int.decLe a.date b.date

instance : IsTotal Listen dateLe := ⟨fun a b => Int.le_total a.date b.date⟩

instance : IsTrans Listen dateLe := ⟨fun _ _ _ => Int.le_trans⟩

/-- The sorted queue produced by `_sort_queue`. -/
def sortQueue (q : List Listen) : List Listen :=
  List.insertionSort dateLe q

/-- `LegacyScrobbler.add_listens`: extend the queue, then sort it. -/
def addListens (e : Engine) (ls : List Listen) : Engine :=
  { e with queue := sortQueue (e.queue ++ ls) }

/-- `LegacyScrobbler.send_nowplaying`: set the nowplaying slot. -/
def sendNowplaying (e : Engine) (l : Listen) : Engine :=
  { e with np := some l }

/-- `LegacyScrobbler._in_case_of_failure`: increment the hard-fail
counter, increase the delay (engine options: base 60, max 7200,
multiplier 2), and if the state is not already `"no_session"` and the
incremented counter is ≥ 3, fall back to `"no_session"`.  The session is
NOT touched here. -/
def inCaseOfFailure (e : Engine) : Engine :=
  let e1 := { e with hardFails := e.hardFails + 1
                   , delaySeconds := Delay.increase 60 7200 2 e.delaySeconds }
  if e1.state ≠ EngState.noSession ∧ 3 ≤ e1.hardFails then
    { e1 with state := .noSession }
  else e1

/-- The shared `except` chain of `LegacyScrobbler._execute_request` for a
submission (nowplaying or scrobble) outcome `r`:
hard failures and requests errors go through `_in_case_of_failure`;
`BadSessionError` sets state `"no_session"` and clears the session;
`HandshakeError` and `SubmissionWithoutListensError` are re-raised; on
success the `else_cb` runs. -/
def handleSubmissionResult (e : Engine) (r : Except NetError Unit)
    (onSuccess : Engine → Engine) : Except NetError Engine :=
  match r with
  | .ok _ => .ok (onSuccess e)
  | .error (.hardFailure _) => .ok (inCaseOfFailure e)
  | .error (.requestsError _) => .ok (inCaseOfFailure e)
  | .error (.badSession _) => .ok { e with state := .noSession, session := none }
  | .error err => .error err

/-- The oracles one `tick()` consumes: whether `delay.is_active` holds at
the instant of the tick, and the transport outcome of the (at most one)
HTTP exchange the tick performs. -/
structure TickEnv where
  delayActive : Bool
  http : HttpResult
deriving DecidableEq, Repr

/-- `LegacyScrobbler.tick()`: at most one protocol action per call.
* state `"no_session"` and no active delay → handshake attempt, with
  `on_successful_handshake_cb` (reset fails/delay, state `"idle"`) on
  success, `_in_case_of_failure` on hard failure / requests error, and
  fatal `HandshakeError`s re-raised.  (`on_handshake_attempt_cb` only
  calls `delay.update()`, which touches the untracked `start_time`.)
* state `"idle"` with a nowplaying slot → nowplaying attempt for it.
* state `"idle"` with a non-empty queue → scrobble attempt for the first
  50 queued listens (`itertools.islice(queue, 0, 50)`); on success the
  head 50 are dropped (`islice(queue, 50, None)`).
* otherwise no-op.
Returns the engine result (or the propagated fatal error, which leaves
every tracked engine field unchanged in the source) and the HTTP
exchanges issued. -/
def tick (e : Engine) (env : TickEnv) : Except NetError Engine × List HttpCall :=
  if e.state = EngState.noSession ∧ env.delayActive = false then
    let call := handshakeCall e.handshakeUrl
    match handshakeNet env.http with
    | .ok (sid, npu, su) =>
      (.ok { e with session := some sid, nowplayingUrl := some npu
                  , scrobbleUrl := some su, hardFails := 0
                  , delaySeconds := 0, state := .idle }, [call])
    | .error (.hardFailure _) => (.ok (inCaseOfFailure e), [call])
    | .error (.requestsError _) => (.ok (inCaseOfFailure e), [call])
    | .error (.badSession _) =>
      (.ok { e with state := .noSession, session := none }, [call])
    | .error err => (.error err, [call])
  else if e.state = EngState.idle ∧ e.np.isSome then
    let out := makePostRequest e.session e.nowplayingUrl e.scrobbleUrl
      .nowplaying e.np.toList env.http
    (handleSubmissionResult e out.1 (fun e1 => { e1 with np := none }), out.2)
  else if e.state = EngState.idle ∧ e.queue ≠ [] then
    let out := makePostRequest e.session e.nowplayingUrl e.scrobbleUrl
      .scrobble (e.queue.take 50) env.http
    (handleSubmissionResult e out.1 (fun e1 => { e1 with queue := e1.queue.drop 50 }), out.2)
  else (.ok e, [])

/-- The engine a tick result leaves behind: the updated engine, or — when
a fatal error propagates — the unchanged prior engine (the source mutates
no tracked field before re-raising). -/
def afterTick (x : Except NetError Engine) (e : Engine) : Engine :=
  match x with
  | .ok e1 => e1
  | .error _ => e

/-- The engine state visible to the host after a tick. -/
def tickEngine (e : Engine) (env : TickEnv) : Engine :=
  afterTick (tick e env).1 e

/-- The `Except` outcome of the submission a tick in `"idle"` state would
attempt: the nowplaying POST when the slot is filled, else the scrobble
POST for the head batch. -/
def submissionResult (e : Engine) (env : TickEnv) : Except NetError Unit :=
  if e.np.isSome then
    (makePostRequest e.session e.nowplayingUrl e.scrobbleUrl .nowplaying
      e.np.toList env.http).1
  else
    (makePostRequest e.session e.nowplayingUrl e.scrobbleUrl .scrobble
      (e.queue.take 50) env.http).1

/-- Engine states reachable from construction through the public surface:
any sequence of `tick`, `add_listens` and `send_nowplaying` calls. -/
inductive Reachable : Engine → Prop where
  | init (url : String) : Reachable (Engine.init url)
  | tick (env : TickEnv) {e : Engine} : Reachable e → Reachable (tickEngine e env)
  | add (ls : List Listen) {e : Engine} : Reachable e → Reachable (addListens e ls)
  | nowplaying (l : Listen) {e : Engine} : Reachable e → Reachable (sendNowplaying e l)

/-- The delay lengths the engine can ever hold with its options
(base 60, max 7200, multiplier 2). -/
def delaySet : List Nat :=
  [0, 60, 120, 240, 480, 960, 1920, 3840, 7200]

/-- A minimal listen used in concrete instantiations. -/
def listenA : Listen :=
  { date := 0, artist_name := "Artist", track_title := "Track" }

/-- A listen with a 100-second length, whose required play time is 50 s. -/
def listenLen100 : Listen :=
  { date := 0, artist_name := "Artist", track_title := "Track", length := some 100 }

/-- A tick environment whose HTTP exchange comes back `500` (hard failure),
with no delay in effect. -/
def env500 : TickEnv :=
  { delayActive := false, http := .resp 500 "" }

/-- A tick environment whose HTTP exchange comes back `200 "OK"`. -/
def envOk : TickEnv :=
  { delayActive := false, http := .resp 200 "OK" }

/-- A tick environment whose POST comes back `200 "BADSESSION"`. -/
def envBadSession : TickEnv :=
  { delayActive := false, http := .resp 200 "BADSESSION" }

/-- An idle engine with a stored session, two prior hard failures and one
queued listen: input for the C1 analysis. -/
def engineC1 : Engine :=
  { state := .idle, session := some "sid", nowplayingUrl := some "nu"
  , scrobbleUrl := some "su", handshakeUrl := "hs", hardFails := 2
  , delaySeconds := 240, np := none, queue := [listenA] }

/-- An idle engine with a stored session and one queued listen: input for
the C4 analysis. -/
def engineC4 : Engine :=
  { state := .idle, session := some "sid", nowplayingUrl := some "nu"
  , scrobbleUrl := some "su", handshakeUrl := "hs", hardFails := 0
  , delaySeconds := 0, np := none, queue := [listenA] }

/-- An idle engine with a stored session and one queued listen: input for
the C5 witness. -/
def engineC5 : Engine :=
  { state := .idle, session := some "sid", nowplayingUrl := some "nu"
  , scrobbleUrl := some "su", handshakeUrl := "hs", hardFails := 0
  , delaySeconds := 0, np := none, queue := [listenA] }

/-- An idle engine with a stored session and an empty queue: input for the
C6 witness (the queue is filled by `addListens`). -/
def engineC6 : Engine :=
  { state := .idle, session := some "sid", nowplayingUrl := some "nu"
  , scrobbleUrl := some "su", handshakeUrl := "hs", hardFails := 0
  , delaySeconds := 0, np := none, queue := [] }

/-- An idle engine with a stored session and one queued listen: input for
the C7 witness. -/
def engineC7 : Engine :=
  { state := .idle, session := some "sid", nowplayingUrl := some "nu"
  , scrobbleUrl := some "su", handshakeUrl := "hs", hardFails := 1
  , delaySeconds := 60, np := none, queue := [listenA] }

/-- The delay state for the C3 analysis: a 60-second backoff armed at
instant 0. -/
def delayC3 : Delay :=
  { seconds := 60, start_time := some 0 }

/-! ## Helper lemmas -/

/-- `_in_case_of_failure` increments the counter, increases the delay and
touches nothing else apart from the state label. -/
theorem inCaseOfFailure_fields (e : Engine) :
    (inCaseOfFailure e).hardFails = e.hardFails + 1
    ∧ (inCaseOfFailure e).delaySeconds = Delay.increase 60 7200 2 e.delaySeconds
    ∧ (inCaseOfFailure e).session = e.session
    ∧ (inCaseOfFailure e).queue = e.queue
    ∧ (inCaseOfFailure e).np = e.np := by
  simp only [inCaseOfFailure]
  split <;> simp

/-- From the idle state, once the incremented counter reaches 3 the
failure handler falls back to the handshake phase. -/
theorem inCaseOfFailure_state (e : Engine) (hidle : e.state = EngState.idle)
    (h2 : 2 ≤ e.hardFails) : (inCaseOfFailure e).state = EngState.noSession := by
  unfold inCaseOfFailure
  rw [if_pos]
  constructor
  · simp [hidle]
  · simpa using h2

/-- An idle tick with a filled nowplaying slot attempts the nowplaying
POST and runs the shared submission error handling. -/
theorem tick_idle_np (e : Engine) (env : TickEnv)
    (hstate : e.state = EngState.idle) (hnp : e.np.isSome = true) :
    tick e env =
      (handleSubmissionResult e
        (makePostRequest e.session e.nowplayingUrl e.scrobbleUrl .nowplaying
          e.np.toList env.http).1
        (fun e1 => { e1 with np := none }),
      (makePostRequest e.session e.nowplayingUrl e.scrobbleUrl .nowplaying
        e.np.toList env.http).2) := by
  have h1 : ¬(e.state = EngState.noSession ∧ env.delayActive = false) := by
    simp [hstate]
  unfold tick
  rw [if_neg h1, if_pos ⟨hstate, hnp⟩]

/-- An idle tick with an empty nowplaying slot and a non-empty queue
attempts the scrobble POST for the head batch of 50 and runs the shared
submission error handling. -/
theorem tick_idle_scrobble (e : Engine) (env : TickEnv)
    (hstate : e.state = EngState.idle) (hnp : e.np = none)
    (hq : e.queue ≠ []) :
    tick e env =
      (handleSubmissionResult e
        (makePostRequest e.session e.nowplayingUrl e.scrobbleUrl .scrobble
          (e.queue.take 50) env.http).1
        (fun e1 => { e1 with queue := e1.queue.drop 50 }),
      (makePostRequest e.session e.nowplayingUrl e.scrobbleUrl .scrobble
        (e.queue.take 50) env.http).2) := by
  have h1 : ¬(e.state = EngState.noSession ∧ env.delayActive = false) := by
    simp [hstate]
  have h2 : ¬(e.state = EngState.idle ∧ e.np.isSome = true) := by
    simp [hnp]
  unfold tick
  rw [if_neg h1, if_neg h2, if_pos ⟨hstate, hq⟩]

/-- With an empty nowplaying slot, the submission a tick attempts is the
scrobble POST of the head batch. -/
theorem submissionResult_scrobble (e : Engine) (env : TickEnv)
    (hnp : e.np = none) :
    submissionResult e env =
      (makePostRequest e.session e.nowplayingUrl e.scrobbleUrl .scrobble
        (e.queue.take 50) env.http).1 := by
  unfold submissionResult
  rw [if_neg]
  simp [hnp]

/-- With a filled nowplaying slot, the submission a tick attempts is the
nowplaying POST. -/
theorem submissionResult_np (e : Engine) (env : TickEnv)
    (hnp : e.np.isSome = true) :
    submissionResult e env =
      (makePostRequest e.session e.nowplayingUrl e.scrobbleUrl .nowplaying
        e.np.toList env.http).1 := by
  unfold submissionResult
  rw [if_pos hnp]

/-- Every exchange `_make_post_request` issues is a POST carrying no
timeout argument. -/
theorem makePostRequest_calls (sess npu su : Option String) (rt : ReqType)
    (listens : List Listen) (res : HttpResult) (c : HttpCall)
    (hc : c ∈ (makePostRequest sess npu su rt listens res).2) :
    c.method = "POST" ∧ c.timeout = none := by
  cases sess with
  | none => simp [makePostRequest] at hc
  | some sid =>
    cases listens with
    | nil => simp [makePostRequest] at hc
    | cons l0 t =>
      cases res with
      | exn m =>
        simp only [makePostRequest, List.mem_singleton] at hc
        simp [hc]
      | resp st b =>
        simp only [makePostRequest] at hc
        cases hrs : raiseForStatus st with
        | error err =>
          rw [hrs] at hc
          simp only [List.mem_singleton] at hc
          simp [hc]
        | ok u =>
          rw [hrs] at hc
          simp only [List.mem_singleton] at hc
          simp [hc]

/-- The shared error handler on a successful submission runs the success
callback. -/
theorem handleSubmissionResult_ok (e : Engine) (f : Engine → Engine) :
    handleSubmissionResult e (.ok ()) f = .ok (f e) := rfl

/-- The shared error handler on a hard failure runs
`_in_case_of_failure`. -/
theorem handleSubmissionResult_hardFailure (e : Engine) (f : Engine → Engine)
    (d : String) :
    handleSubmissionResult e (.error (.hardFailure d)) f = .ok (inCaseOfFailure e) := rfl

/-- The shared error handler on a requests error runs
`_in_case_of_failure`. -/
theorem handleSubmissionResult_requestsError (e : Engine) (f : Engine → Engine)
    (d : String) :
    handleSubmissionResult e (.error (.requestsError d)) f = .ok (inCaseOfFailure e) := rfl

/-- The shared error handler on `BadSessionError` drops to the handshake
phase and clears the session, touching nothing else. -/
theorem handleSubmissionResult_badSession (e : Engine) (f : Engine → Engine)
    (d : String) :
    handleSubmissionResult e (.error (.badSession d)) f
      = .ok { e with state := .noSession, session := none } := rfl

/-- A scrobble POST with a stored session and a non-empty batch issues
exactly one exchange: a POST to the scrobble URL without a timeout, whose
body is the indexed scrobble params followed by the session key. -/
theorem makePostRequest_scrobble_call (sid : String) (npu su : Option String)
    (l0 : Listen) (t : List Listen) (res : HttpResult) :
    (makePostRequest (some sid) npu su .scrobble (l0 :: t) res).2
      = [{ method := "POST", url := su, timeout := none
         , body := getScrobbleParams (l0 :: t) ++ [("s", PVal.s sid)] }] := by
  cases res with
  | exn m => rfl
  | resp st b =>
    simp only [makePostRequest]
    cases hrs : raiseForStatus st with
    | error err => rfl
    | ok u => rfl

/-! ## Claim theorems -/

/-- C1 counterexample: with two prior hard failures, a stored session and
a queued listen, a scrobble attempt that hard-fails drives the counter to
3 and the state to `NoSession` within the tick — but the stored session
credentials are NOT cleared, contradicting the claim that the session is
absent by the end of that tick. -/
theorem c1_session_survives_hard_fail_cex :
    submissionResult engineC1 env500 = .error (.hardFailure "500")
    ∧ (tickEngine engineC1 env500).hardFails = 3
    ∧ (tickEngine engineC1 env500).state = EngState.noSession
    ∧ (tickEngine engineC1 env500).session = some "sid"
    ∧ (tickEngine engineC1 env500).session ≠ none := by
  refine ⟨rfl, by decide, by decide, by decide, by decide⟩

/-- C1 (amended): whenever a submission (nowplaying or scrobble) fails
with `HardFailure` or `RequestsError` and the hard-fail counter thereby
reaches 3 or more, then by the end of that same `tick()` the engine state
is `NoSession`, while the stored session credentials are left unchanged
(they are not cleared; only `BadSession` clears them). -/
theorem c1_hard_fail_fallback (e : Engine) (env : TickEnv)
    (hstate : e.state = EngState.idle)
    (hpend : e.np.isSome = true ∨ e.np = none ∧ e.queue ≠ [])
    (hfail : ∃ d, submissionResult e env = .error (.hardFailure d)
      ∨ submissionResult e env = .error (.requestsError d))
    (h2 : 2 ≤ e.hardFails) :
    (tickEngine e env).state = EngState.noSession
    ∧ (tickEngine e env).hardFails = e.hardFails + 1
    ∧ 3 ≤ (tickEngine e env).hardFails
    ∧ (tickEngine e env).session = e.session := by
  obtain ⟨d, hd⟩ := hfail
  have hcase : (tick e env).1 = .ok (inCaseOfFailure e) := by
    rcases hpend with hnp | ⟨hnp, hq⟩
    · rw [tick_idle_np e env hstate hnp]
      rw [submissionResult_np e env hnp] at hd
      dsimp only
      rcases hd with hd | hd <;> rw [hd] <;> rfl
    · rw [tick_idle_scrobble e env hstate hnp hq]
      rw [submissionResult_scrobble e env hnp] at hd
      dsimp only
      rcases hd with hd | hd <;> rw [hd] <;> rfl
  have ht : tickEngine e env = inCaseOfFailure e := by
    unfold tickEngine
    rw [hcase]
    rfl
  rw [ht]
  refine ⟨inCaseOfFailure_state e hstate h2, (inCaseOfFailure_fields e).1, ?_,
    (inCaseOfFailure_fields e).2.2.1⟩
  rw [(inCaseOfFailure_fields e).1]
  omega

/-- C1 witness: the amended theorem applied at the concrete engine with
two prior failures and a 500 response. -/
theorem c1_hard_fail_fallback_witness :
    (tickEngine engineC1 env500).state = EngState.noSession
    ∧ (tickEngine engineC1 env500).hardFails = engineC1.hardFails + 1
    ∧ 3 ≤ (tickEngine engineC1 env500).hardFails
    ∧ (tickEngine engineC1 env500).session = engineC1.session :=
  c1_hard_fail_fallback engineC1 env500 rfl (Or.inr ⟨rfl, by decide⟩)
    ⟨"500", Or.inl rfl⟩ (by decide)

/-- C2: the code evaluated at a reference one full day after the listen
date.  The listen is 100 s long (`required_play_time = 50`), the gap is
86400 s ≥ 50 s and the claim therefore requires eligibility, but
`eligible_for_scrobbling` compares only the sub-day `.seconds` component
of the timedelta (here 0) and returns `False`.  Moreover, with an absent
`length` the source raises `TypeError` (modelled `none`) instead of the
claimed `True`. -/
theorem c2_eligibility_day_truncation :
    Listen.eligible_for_scrobbling listenLen100 (some 86400000000) = some false
    ∧ Listen.required_play_time 100 = 50
    ∧ listenLen100.length = some 100
    ∧ (86400000000 : Int) - listenLen100.date = 86400 * 1000000
    ∧ (30 : Int) ≤ 100
    ∧ Listen.required_play_time 100 ≤ 86400
    ∧ tdSeconds (86400000000 - listenLen100.date) = 0
    ∧ Listen.eligible_for_scrobbling listenA (some 86400000000) = none := by
  refine ⟨by decide, by decide, by decide, by decide, by decide, by decide,
    by decide, by decide⟩

/-- C3: the code evaluated at a delay of 60 s armed at instant 0, queried
59.5 s later.  The start time is present, `seconds > 0` and the delay end
(60 s) is strictly in the future — 0.5 s remain — yet `is_active` is
`False` because it tests the whole-second `.seconds` component of the
remaining timedelta, which truncates the sub-second remainder to 0. -/
theorem c3_is_active_subsecond_truncation :
    delayC3.start_time = some 0
    ∧ 0 < delayC3.seconds
    ∧ (0 : Int) + (delayC3.seconds : Int) * 1000000 > 59500000
    ∧ Delay.remainingMicros delayC3 59500000 = 500000
    ∧ 0 < Delay.remainingMicros delayC3 59500000
    ∧ Delay.is_active delayC3 59500000 = false := by
  refine ⟨by decide, by decide, by decide, by decide, by decide, by decide⟩

/-- C4 counterexample: a tick in the idle state with a queued listen
issues exactly one HTTP exchange, a POST whose timeout argument is absent
— not the claimed 5-second timeout. -/
theorem c4_post_without_timeout_cex :
    ((tick engineC4 envOk).2.map (fun c => (c.method, c.timeout)))
      = [("POST", (none : Option Nat))]
    ∧ (none : Option Nat) ≠ some 5 := by
  refine ⟨by decide, by decide⟩

/-- C4 (amended): every HTTP exchange a tick performs is either the
handshake GET, which passes a 5-second timeout, or a nowplaying/scrobble
POST, which passes NO timeout to the HTTP library. -/
theorem c4_timeouts (e : Engine) (env : TickEnv) (c : HttpCall)
    (hc : c ∈ (tick e env).2) :
    (c.method = "GET" → c.timeout = some 5)
    ∧ (c.method = "POST" → c.timeout = none) := by
  by_cases h1 : e.state = EngState.noSession ∧ env.delayActive = false
  · have hcalls : (tick e env).2 = [handshakeCall e.handshakeUrl] := by
      unfold tick
      rw [if_pos h1]
      cases hh : handshakeNet env.http with
      | ok v => obtain ⟨a, b, c⟩ := v; rfl
      | error err => cases err <;> rfl
    rw [hcalls] at hc
    have hceq : c = handshakeCall e.handshakeUrl := by simpa using hc
    subst hceq
    constructor
    · intro _; rfl
    · intro h; simp [handshakeCall] at h
  · by_cases h2 : e.state = EngState.idle ∧ e.np.isSome = true
    · have hcalls : (tick e env).2
          = (makePostRequest e.session e.nowplayingUrl e.scrobbleUrl .nowplaying
              e.np.toList env.http).2 := by
        rw [tick_idle_np e env h2.1 h2.2]
      rw [hcalls] at hc
      have hp := makePostRequest_calls _ _ _ _ _ _ _ hc
      constructor
      · intro h; rw [hp.1] at h; simp at h
      · intro _; exact hp.2
    · by_cases h3 : e.state = EngState.idle ∧ e.queue ≠ []
      · have hnp : e.np = none := by
          cases hnp : e.np with
          | none => rfl
          | some l => exact absurd ⟨h3.1, by rw [hnp]; rfl⟩ h2
        have hcalls : (tick e env).2
            = (makePostRequest e.session e.nowplayingUrl e.scrobbleUrl .scrobble
                (e.queue.take 50) env.http).2 := by
          rw [tick_idle_scrobble e env h3.1 hnp h3.2]
        rw [hcalls] at hc
        have hp := makePostRequest_calls _ _ _ _ _ _ _ hc
        constructor
        · intro h; rw [hp.1] at h; simp at h
        · intro _; exact hp.2
      · have hcalls : (tick e env).2 = [] := by
          unfold tick
          rw [if_neg h1, if_neg h2, if_neg h3]
        rw [hcalls] at hc
        simp at hc

/-- C4 witness: the amended theorem applied to the handshake exchange of
a fresh engine's first tick. -/
theorem c4_timeouts_witness :
    ((handshakeCall "u").method = "GET" → (handshakeCall "u").timeout = some 5)
    ∧ ((handshakeCall "u").method = "POST" → (handshakeCall "u").timeout = none) :=
  c4_timeouts (Engine.init "u") env500 (handshakeCall "u") (by decide)

/-- C5: a scrobble-batch attempt during an idle tick either succeeds and
removes exactly `min(50, queue length)` elements from the head of the
queue, or fails with any error (hard failure, requests error, bad
session, or a propagated fatal error) and leaves the queue exactly
unchanged. -/
theorem c5_batch_all_or_nothing (e : Engine) (env : TickEnv)
    (hstate : e.state = EngState.idle) (hnp : e.np = none)
    (hq : e.queue ≠ []) :
    (submissionResult e env = .ok () →
      (tickEngine e env).queue = e.queue.drop 50
      ∧ (e.queue.take 50).length = min 50 e.queue.length
      ∧ e.queue = e.queue.take 50 ++ (tickEngine e env).queue)
    ∧ (∀ err, submissionResult e env = .error err →
      (tickEngine e env).queue = e.queue) := by
  have hpair := tick_idle_scrobble e env hstate hnp hq
  have hsub := submissionResult_scrobble e env hnp
  constructor
  · intro hok
    rw [hsub] at hok
    have ht : tickEngine e env = { e with queue := e.queue.drop 50 } := by
      unfold tickEngine
      rw [hpair]
      dsimp only
      rw [hok]
      rfl
    rw [ht]
    exact ⟨rfl, List.length_take 50 e.queue, (List.take_append_drop 50 e.queue).symm⟩
  · intro err herr
    rw [hsub] at herr
    have ht : tickEngine e env
        = afterTick (handleSubmissionResult e (.error err)
            (fun e1 => { e1 with queue := e1.queue.drop 50 })) e := by
      unfold tickEngine
      rw [hpair]
      dsimp only
      rw [herr]
    rw [ht]
    cases err with
    | hardFailure d => exact (inCaseOfFailure_fields e).2.2.2.1
    | requestsError d => exact (inCaseOfFailure_fields e).2.2.2.1
    | badSession d => rfl
    | clientBanned => rfl
    | badAuth => rfl
    | badTime => rfl
    | submissionWithoutListens => rfl

/-- C5 witness: the theorem applied at an idle engine with one queued
listen and a `200 OK` response; the single listen is removed. -/
theorem c5_batch_all_or_nothing_witness :
    (tickEngine engineC5 envOk).queue = engineC5.queue.drop 50
    ∧ (engineC5.queue.take 50).length = min 50 engineC5.queue.length
    ∧ engineC5.queue = engineC5.queue.take 50 ++ (tickEngine engineC5 envOk).queue :=
  (c5_batch_all_or_nothing engineC5 envOk rfl rfl (by decide)).1 rfl

/-- C6: after any `add_listens` call the queue is sorted ascending by
listen date; the scrobble batch an idle tick submits is the first
`min(50, queue length)` queue elements in queue order; the head of the
queue — the chronologically earliest listen of the batch — is rendered at
positional index 0 of the wire parameters, which the tick's single POST
carries. -/
theorem c6_sorted_queue_and_batch (e : Engine) (ls : List Listen)
    (env : TickEnv) (l0 : Listen) (rest : List Listen) (sid : String)
    (hq : (addListens e ls).queue = l0 :: rest)
    (hstate : e.state = EngState.idle) (hnp : e.np = none)
    (hsid : e.session = some sid) :
    List.Sorted dateLe (addListens e ls).queue
    ∧ (∀ l, l ∈ (addListens e ls).queue.take 50 → dateLe l0 l)
    ∧ ((addListens e ls).queue.take 50).length
        = min 50 (addListens e ls).queue.length
    ∧ getScrobbleParams ((addListens e ls).queue.take 50)
        = Listen.scrobble_params l0 0 ++ getScrobbleParamsAux 1 (rest.take 49)
    ∧ (tick (addListens e ls) env).2
        = [{ method := "POST", url := e.scrobbleUrl, timeout := none
           , body := getScrobbleParams ((addListens e ls).queue.take 50)
               ++ [("s", PVal.s sid)] }] := by
  have hsort : List.Sorted dateLe (addListens e ls).queue :=
    List.sorted_insertionSort dateLe (e.queue ++ ls)
  have hsort2 : List.Sorted dateLe (l0 :: rest) := by rw [hq] at hsort; exact hsort
  have hhead : ∀ b ∈ rest, dateLe l0 b := (List.sorted_cons.mp hsort2).1
  have htake : (addListens e ls).queue.take 50 = l0 :: rest.take 49 := by
    rw [hq]
    rfl
  refine ⟨hsort, ?_, List.length_take 50 _, ?_, ?_⟩
  · intro l hl
    rw [hq] at hl
    rcases List.mem_cons.mp (List.take_subset 50 (l0 :: rest) hl) with h | h
    · rw [h]; exact Int.le_refl l0.date
    · exact hhead l h
  · rw [htake]
    rfl
  · have hq' : (addListens e ls).queue ≠ [] := by rw [hq]; exact List.cons_ne_nil l0 rest
    have htick := tick_idle_scrobble (addListens e ls) env hstate hnp hq'
    have hsid2 : (addListens e ls).session = some sid := hsid
    rw [htick]
    dsimp only
    rw [hsid2, htake, makePostRequest_scrobble_call]
    rfl

/-- C6 witness: the theorem applied at an idle engine receiving a single
listen through `add_listens`. -/
theorem c6_sorted_queue_and_batch_witness :
    List.Sorted dateLe (addListens engineC6 [listenA]).queue
    ∧ (tick (addListens engineC6 [listenA]) envOk).2
        = [{ method := "POST", url := engineC6.scrobbleUrl, timeout := none
           , body := getScrobbleParams ((addListens engineC6 [listenA]).queue.take 50)
               ++ [("s", PVal.s "sid")] }] := by
  have h := c6_sorted_queue_and_batch engineC6 [listenA] envOk listenA [] "sid"
    rfl rfl rfl rfl
  exact ⟨h.1, h.2.2.2.2⟩

/-- C7: whenever an idle tick's submission (nowplaying or scrobble)
raises `BadSession` — either from the missing-session pre-check or from a
`BADSESSION` response body — the engine clears the stored session, sets
state to `NoSession`, leaves the hard-fail counter unchanged and leaves
the queue unchanged. -/
theorem c7_badsession_recovery (e : Engine) (env : TickEnv)
    (hstate : e.state = EngState.idle)
    (hpend : e.np.isSome = true ∨ e.np = none ∧ e.queue ≠ [])
    (hbad : ∃ d, submissionResult e env = .error (.badSession d)) :
    (tickEngine e env).session = none
    ∧ (tickEngine e env).state = EngState.noSession
    ∧ (tickEngine e env).hardFails = e.hardFails
    ∧ (tickEngine e env).queue = e.queue := by
  obtain ⟨d, hd⟩ := hbad
  have ht : tickEngine e env = { e with state := .noSession, session := none } := by
    rcases hpend with hnp | ⟨hnp, hq⟩
    · unfold tickEngine
      rw [tick_idle_np e env hstate hnp]
      rw [submissionResult_np e env hnp] at hd
      dsimp only
      rw [hd]
      rfl
    · unfold tickEngine
      rw [tick_idle_scrobble e env hstate hnp hq]
      rw [submissionResult_scrobble e env hnp] at hd
      dsimp only
      rw [hd]
      rfl
  rw [ht]
  exact ⟨rfl, rfl, rfl, rfl⟩

/-- C7 witness: the theorem applied at an idle engine with a stored
session and one queued listen receiving a `BADSESSION` response. -/
theorem c7_badsession_recovery_witness :
    (tickEngine engineC7 envBadSession).session = none
    ∧ (tickEngine engineC7 envBadSession).state = EngState.noSession
    ∧ (tickEngine engineC7 envBadSession).hardFails = engineC7.hardFails
    ∧ (tickEngine engineC7 envBadSession).queue = engineC7.queue :=
  c7_badsession_recovery engineC7 envBadSession rfl (Or.inr ⟨rfl, by decide⟩)
    ⟨"Remote server says the session is invalid", rfl⟩

/-- Any single tick leaves the delay length unchanged, resets it to 0, or
applies one `increase` step with the engine options. -/
theorem tickEngine_delaySeconds (e : Engine) (env : TickEnv) :
    (tickEngine e env).delaySeconds = e.delaySeconds
    ∨ (tickEngine e env).delaySeconds = 0
    ∨ (tickEngine e env).delaySeconds = Delay.increase 60 7200 2 e.delaySeconds := by
  by_cases h1 : e.state = EngState.noSession ∧ env.delayActive = false
  · unfold tickEngine tick
    rw [if_pos h1]
    dsimp only
    cases hh : handshakeNet env.http with
    | ok v =>
      obtain ⟨a, b, c⟩ := v
      right; left; rfl
    | error err =>
      cases err with
      | hardFailure d => right; right; exact (inCaseOfFailure_fields e).2.1
      | requestsError d => right; right; exact (inCaseOfFailure_fields e).2.1
      | badSession d => left; rfl
      | clientBanned => left; rfl
      | badAuth => left; rfl
      | badTime => left; rfl
      | submissionWithoutListens => left; rfl
  · by_cases h2 : e.state = EngState.idle ∧ e.np.isSome = true
    · unfold tickEngine
      rw [tick_idle_np e env h2.1 h2.2]
      dsimp only
      cases hr : (makePostRequest e.session e.nowplayingUrl e.scrobbleUrl
          .nowplaying e.np.toList env.http).1 with
      | ok u => left; rfl
      | error err =>
        cases err with
        | hardFailure d => right; right; exact (inCaseOfFailure_fields e).2.1
        | requestsError d => right; right; exact (inCaseOfFailure_fields e).2.1
        | badSession d => left; rfl
        | clientBanned => left; rfl
        | badAuth => left; rfl
        | badTime => left; rfl
        | submissionWithoutListens => left; rfl
    · by_cases h3 : e.state = EngState.idle ∧ e.queue ≠ []
      · have hnp : e.np = none := by
          cases hnpv : e.np with
          | none => rfl
          | some l => exact absurd ⟨h3.1, by rw [hnpv]; rfl⟩ h2
        unfold tickEngine
        rw [tick_idle_scrobble e env h3.1 hnp h3.2]
        dsimp only
        cases hr : (makePostRequest e.session e.nowplayingUrl e.scrobbleUrl
            .scrobble (e.queue.take 50) env.http).1 with
        | ok u => left; rfl
        | error err =>
          cases err with
          | hardFailure d => right; right; exact (inCaseOfFailure_fields e).2.1
          | requestsError d => right; right; exact (inCaseOfFailure_fields e).2.1
          | badSession d => left; rfl
          | clientBanned => left; rfl
          | badAuth => left; rfl
          | badTime => left; rfl
          | submissionWithoutListens => left; rfl
      · unfold tickEngine tick
        rw [if_neg h1, if_neg h2, if_neg h3]
        left; rfl

/-- The reachable delay lengths are closed under one `increase` step with
the engine options (base 60, max 7200, multiplier 2). -/
theorem delaySet_closed : ∀ s ∈ delaySet, Delay.increase 60 7200 2 s ∈ delaySet := by
  decide

/-- Every reachable delay length is at most 7200. -/
theorem delaySet_bound : ∀ s ∈ delaySet, s ≤ 7200 := by
  decide

/-- C8: for every engine state reachable from construction through any
sequence of ticks, `add_listens` and `send_nowplaying` calls, the delay
length satisfies `0 ≤ delay.seconds ≤ 7200` (it is a `Nat`, hence ≥ 0)
and lies in `{0, 60, 120, 240, 480, 960, 1920, 3840, 7200}`. -/
theorem c8_delay_seconds_reachable (e : Engine) (h : Reachable e) :
    e.delaySeconds ∈ delaySet ∧ e.delaySeconds ≤ 7200 := by
  have hmem : e.delaySeconds ∈ delaySet := by
    induction h with
    | init url => show (0 : Nat) ∈ delaySet; decide
    | tick env hr ih =>
      rcases tickEngine_delaySeconds _ env with h' | h' | h' <;> rw [h']
      · exact ih
      · decide
      · exact delaySet_closed _ ih
    | add ls hr ih => exact ih
    | nowplaying l hr ih => exact ih
  exact ⟨hmem, delaySet_bound _ hmem⟩

/-- C8 witness: the theorem applied to the freshly constructed engine. -/
theorem c8_delay_seconds_reachable_witness :
    (Engine.init "u").delaySeconds ∈ delaySet
    ∧ (Engine.init "u").delaySeconds ≤ 7200 :=
  c8_delay_seconds_reachable (Engine.init "u") (Reachable.init "u")

/-- C9: a present-but-falsy optional field (`album_title = ""`,
`mb_trackid = ""`, `rating = ""`, `tracknumber = 0`, `length = 0`)
renders exactly like an absent field, in both the nowplaying and the
scrobble parameter renderings. -/
theorem c9_falsy_fields_render (l : Listen) (idx : Nat) :
    Listen.nowplaying_params { l with album_title := some "" }
      = Listen.nowplaying_params { l with album_title := none }
    ∧ Listen.scrobble_params { l with album_title := some "" } idx
      = Listen.scrobble_params { l with album_title := none } idx
    ∧ Listen.nowplaying_params { l with mb_trackid := some "" }
      = Listen.nowplaying_params { l with mb_trackid := none }
    ∧ Listen.scrobble_params { l with mb_trackid := some "" } idx
      = Listen.scrobble_params { l with mb_trackid := none } idx
    ∧ Listen.nowplaying_params { l with rating := some "" }
      = Listen.nowplaying_params { l with rating := none }
    ∧ Listen.scrobble_params { l with rating := some "" } idx
      = Listen.scrobble_params { l with rating := none } idx
    ∧ Listen.nowplaying_params { l with tracknumber := some 0 }
      = Listen.nowplaying_params { l with tracknumber := none }
    ∧ Listen.scrobble_params { l with tracknumber := some 0 } idx
      = Listen.scrobble_params { l with tracknumber := none } idx
    ∧ Listen.nowplaying_params { l with length := some 0 }
      = Listen.nowplaying_params { l with length := none }
    ∧ Listen.scrobble_params { l with length := some 0 } idx
      = Listen.scrobble_params { l with length := none } idx := by
  exact ⟨rfl, rfl, rfl, rfl, rfl, rfl, rfl, rfl, rfl, rfl⟩

/-- C10: a nowplaying or scrobble attempt with no stored session raises
`BadSession` before anything else: no HTTP exchange is issued (the call
list is empty and the outcome is independent of the transport oracle),
and the empty-listens check never fires — `scrobble([])` with no session
raises `BadSession`, not `SubmissionWithoutListens`. -/
theorem c10_no_session_precedence (npu su : Option String) (rt : ReqType)
    (listens : List Listen) (res res2 : HttpResult) :
    makePostRequest none npu su rt listens res
      = (.error (.badSession "No session exists at time of submission attempt"),
         ([] : List HttpCall))
    ∧ makePostRequest none npu su rt listens res
      = makePostRequest none npu su rt listens res2
    ∧ (makePostRequest none npu su rt [] res).1
      ≠ .error .submissionWithoutListens := by
  refine ⟨rfl, rfl, ?_⟩
  intro h
  injection h with h2
  exact NetError.noConfusion h2

end LegacyScrobbler
